import Mathlib

/-!
Verification development for the NutriTrack nutrition-logging dashboard.

The repository consists of three Python files:

* `src/supabase_client.py` — `SupabaseManager`, a thin wrapper over a remote
  hosted table (insert / select / update / delete on the `food_log` table);
* `src/utils.py` — `load_data` / `save_data` (remote access with a local CSV
  fallback), `calculate_daily_totals` (pandas groupby-sum);
* `src/main.py` — the Streamlit UI: the Add Entry handler, the Dashboard and
  History tabs (datetime range mask, `value_counts().head(10)`), and the
  edit/delete handlers.

This file gives a shallow embedding of that code.  Timestamps are embedded as
records of numeric fields; the canonical `strftime` output and the
`pd.to_datetime` parser (restricted to the canonical `YYYY-MM-DD HH:MM:SS`
layout the app reads and writes) are embedded as executable format/parse
functions on `String`.  The remote table is a list of rows plus an
availability flag: every network call raises (errors) when the flag is off,
which is how a simulated outage is expressed.  Dataframes are embedded as
lists of logical records in row order.
-/

namespace NutriTrack

/-- Calendar date, the `date` column (`YYYY-MM-DD`). -/
structure Date where
  year : Nat
  month : Nat
  day : Nat
deriving DecidableEq, Repr

/-- Timestamp to the second, the `datetime` column (`YYYY-MM-DD HH:MM:SS`). -/
structure DateTime where
  year : Nat
  month : Nat
  day : Nat
  hour : Nat
  minute : Nat
  second : Nat
deriving DecidableEq, Repr

/-- Calendar-date component of a timestamp (the spec's `derived date`). -/
def DateTime.dateOf (dt : DateTime) : Date :=
  ⟨dt.year, dt.month, dt.day⟩

/-- Field bounds satisfied by every timestamp that a real pandas `Timestamp`
(with a four-digit year) can denote; `strftime` output is canonical exactly
for such values. -/
def DateTime.Valid (dt : DateTime) : Prop :=
  dt.year < 10000 ∧ 1 ≤ dt.month ∧ dt.month ≤ 12 ∧ 1 ≤ dt.day ∧ dt.day ≤ 31 ∧
    dt.hour ≤ 23 ∧ dt.minute ≤ 59 ∧ dt.second ≤ 59

instance : DecidablePred DateTime.Valid := fun dt => by
  unfold DateTime.Valid; exact inferInstance

/-- Field bounds for a calendar date with a four-digit year. -/
def Date.Valid (d : Date) : Prop :=
  d.year < 10000 ∧ 1 ≤ d.month ∧ d.month ≤ 12 ∧ 1 ≤ d.day ∧ d.day ≤ 31

instance : DecidablePred Date.Valid := fun d => by
  unfold Date.Valid; exact inferInstance

theorem DateTime.Valid.dateOf {dt : DateTime} (h : dt.Valid) : dt.dateOf.Valid := by
  obtain ⟨h1, h2, h3, h4, h5, _, _, _⟩ := h
  exact ⟨h1, h2, h3, h4, h5⟩

/-- Chronological order on timestamps (lexicographic on the fields), the
order pandas uses to compare `Timestamp` values; on canonical zero-padded
strings it coincides with string order, which is what the backend's
`order("datetime", ...)` uses. -/
def DateTime.le (a b : DateTime) : Prop :=
  a.year < b.year ∨ (a.year = b.year ∧
    (a.month < b.month ∨ (a.month = b.month ∧
      (a.day < b.day ∨ (a.day = b.day ∧
        (a.hour < b.hour ∨ (a.hour = b.hour ∧
          (a.minute < b.minute ∨ (a.minute = b.minute ∧
            a.second ≤ b.second)))))))))

instance (a b : DateTime) : Decidable (a.le b) := by
  unfold DateTime.le; exact inferInstance

/-- Strict chronological order on timestamps. -/
def DateTime.lt (a b : DateTime) : Prop :=
  a.year < b.year ∨ (a.year = b.year ∧
    (a.month < b.month ∨ (a.month = b.month ∧
      (a.day < b.day ∨ (a.day = b.day ∧
        (a.hour < b.hour ∨ (a.hour = b.hour ∧
          (a.minute < b.minute ∨ (a.minute = b.minute ∧
            a.second < b.second)))))))))

instance (a b : DateTime) : Decidable (a.lt b) := by
  unfold DateTime.lt; exact inferInstance

/-- Calendar order on dates (lexicographic), which on canonical `YYYY-MM-DD`
strings coincides with the string order used by the backend's
`gte`/`lte` filters on the `date` column. -/
def Date.le (a b : Date) : Prop :=
  a.year < b.year ∨ (a.year = b.year ∧
    (a.month < b.month ∨ (a.month = b.month ∧ a.day ≤ b.day)))

instance (a b : Date) : Decidable (a.le b) := by
  unfold Date.le; exact inferInstance

theorem DateTime.le_refl (a : DateTime) : a.le a := by
  unfold DateTime.le; omega

theorem DateTime.le_total (a b : DateTime) : a.le b ∨ b.le a := by
  unfold DateTime.le; omega

theorem DateTime.le_trans {a b c : DateTime} (h1 : a.le b) (h2 : b.le c) : a.le c := by
  unfold DateTime.le at *; omega

theorem DateTime.lt_not_le {a b : DateTime} (h : a.lt b) : ¬ b.le a := by
  unfold DateTime.lt at h; unfold DateTime.le; omega

/-! ### Canonical formatting (`strftime`) and parsing (`pd.to_datetime`)

`strftime('%Y-%m-%d %H:%M:%S')` / `strftime('%Y-%m-%d')` zero-pad every
field; `pd.to_datetime` applied to such a canonical string parses the six
(resp. three) fields back and rejects out-of-range components.  The parser
below is `pd.to_datetime` restricted to the canonical layouts, which are the
only layouts this app ever writes; any other string is treated as
unparsable, matching how strings such as `"garbage"` make `pd.to_datetime`
raise (or yield `NaT` under `errors="coerce"`). -/

/-- Numeric value of a decimal digit character, `none` on a non-digit. -/
def digitVal (c : Char) : Option Nat :=
  if c.isDigit then some (c.toNat - 48) else none

/-- Two-digit zero-padded decimal rendering (`%m`, `%d`, `%H`, `%M`, `%S`). -/
def format2 (n : Nat) : List Char :=
  [Nat.digitChar (n / 10 % 10), Nat.digitChar (n % 10)]

/-- Four-digit zero-padded decimal rendering (`%Y`). -/
def format4 (n : Nat) : List Char :=
  [Nat.digitChar (n / 1000 % 10), Nat.digitChar (n / 100 % 10),
    Nat.digitChar (n / 10 % 10), Nat.digitChar (n % 10)]

/-- Read a two-digit decimal number. -/
def parse2 (c1 c0 : Char) : Option Nat :=
  match digitVal c1, digitVal c0 with
  | some a, some b => some (10 * a + b)
  | _, _ => none

/-- Read a four-digit decimal number. -/
def parse4 (c3 c2 c1 c0 : Char) : Option Nat :=
  match digitVal c3, digitVal c2, digitVal c1, digitVal c0 with
  | some a, some b, some c, some d => some (1000 * a + 100 * b + 10 * c + d)
  | _, _, _, _ => none

/-- Character stream of `strftime('%Y-%m-%d %H:%M:%S')`. -/
def formatDateTimeChars (dt : DateTime) : List Char :=
  format4 dt.year ++ '-' :: format2 dt.month ++ '-' :: format2 dt.day ++
    ' ' :: format2 dt.hour ++ ':' :: format2 dt.minute ++ ':' :: format2 dt.second

/-- Canonical `YYYY-MM-DD HH:MM:SS` rendering of a timestamp. -/
def formatDateTime (dt : DateTime) : String :=
  ⟨formatDateTimeChars dt⟩

/-- Character stream of `strftime('%Y-%m-%d')`. -/
def formatDateChars (d : Date) : List Char :=
  format4 d.year ++ '-' :: format2 d.month ++ '-' :: format2 d.day

/-- Canonical `YYYY-MM-DD` rendering of a date. -/
def formatDate (d : Date) : String :=
  ⟨formatDateChars d⟩

/-- Parser for the canonical timestamp layout, with range validation as
performed by `pd.to_datetime`. -/
def parseDateTimeChars : List Char → Option DateTime
  | [y3, y2, y1, y0, '-', m1, m0, '-', d1, d0, ' ',
      h1, h0, ':', n1, n0, ':', s1, s0] =>
    match parse4 y3 y2 y1 y0, parse2 m1 m0, parse2 d1 d0,
        parse2 h1 h0, parse2 n1 n0, parse2 s1 s0 with
    | some y, some mo, some d, some h, some mi, some s =>
      if 1 ≤ mo ∧ mo ≤ 12 ∧ 1 ≤ d ∧ d ≤ 31 ∧ h ≤ 23 ∧ mi ≤ 59 ∧ s ≤ 59 then
        some ⟨y, mo, d, h, mi, s⟩
      else none
    | _, _, _, _, _, _ => none
  | _ => none

/-- Model of `pd.to_datetime` on a timestamp string (canonical layout only). -/
def parseDateTime (str : String) : Option DateTime :=
  parseDateTimeChars str.data

/-- Parser for the canonical date layout, with range validation. -/
def parseDateChars : List Char → Option Date
  | [y3, y2, y1, y0, '-', m1, m0, '-', d1, d0] =>
    match parse4 y3 y2 y1 y0, parse2 m1 m0, parse2 d1 d0 with
    | some y, some mo, some d =>
      if 1 ≤ mo ∧ mo ≤ 12 ∧ 1 ≤ d ∧ d ≤ 31 then some ⟨y, mo, d⟩ else none
    | _, _, _ => none
  | _ => none

/-- Model of `pd.to_datetime` on a date string (canonical layout only). -/
def parseDate (str : String) : Option Date :=
  parseDateChars str.data

theorem digitVal_digitChar : ∀ d : Nat, d < 10 → digitVal (Nat.digitChar d) = some d := by
  decide

theorem parse2_format2 (n : Nat) (h : n < 100) :
    parse2 (Nat.digitChar (n / 10 % 10)) (Nat.digitChar (n % 10)) = some n := by
  have h1 := digitVal_digitChar (n / 10 % 10) (by omega)
  have h0 := digitVal_digitChar (n % 10) (by omega)
  simp only [parse2, h1, h0]
  congr 1
  omega

theorem parse4_format4 (n : Nat) (h : n < 10000) :
    parse4 (Nat.digitChar (n / 1000 % 10)) (Nat.digitChar (n / 100 % 10))
      (Nat.digitChar (n / 10 % 10)) (Nat.digitChar (n % 10)) = some n := by
  have h3 := digitVal_digitChar (n / 1000 % 10) (by omega)
  have h2 := digitVal_digitChar (n / 100 % 10) (by omega)
  have h1 := digitVal_digitChar (n / 10 % 10) (by omega)
  have h0 := digitVal_digitChar (n % 10) (by omega)
  simp only [parse4, h3, h2, h1, h0]
  congr 1
  omega

theorem parseDateTimeChars_format (dt : DateTime) (h : dt.Valid) :
    parseDateTimeChars (formatDateTimeChars dt) = some dt := by
  obtain ⟨h1, h2, h3, h4, h5, h6, h7, h8⟩ := h
  simp only [formatDateTimeChars, format4, format2, List.cons_append, List.nil_append]
  simp only [parseDateTimeChars, parse4_format4 dt.year h1,
    parse2_format2 dt.month (by omega), parse2_format2 dt.day (by omega),
    parse2_format2 dt.hour (by omega), parse2_format2 dt.minute (by omega),
    parse2_format2 dt.second (by omega)]
  rw [if_pos ⟨h2, h3, h4, h5, h6, h7, h8⟩]

theorem parseDateTime_formatDateTime (dt : DateTime) (h : dt.Valid) :
    parseDateTime (formatDateTime dt) = some dt :=
  parseDateTimeChars_format dt h

theorem parseDateChars_format (d : Date) (h : d.Valid) :
    parseDateChars (formatDateChars d) = some d := by
  obtain ⟨h1, h2, h3, h4, h5⟩ := h
  simp only [formatDateChars, format4, format2, List.cons_append, List.nil_append]
  simp only [parseDateChars, parse4_format4 d.year h1,
    parse2_format2 d.month (by omega), parse2_format2 d.day (by omega)]
  rw [if_pos ⟨h2, h3, h4, h5⟩]

theorem parseDate_formatDate (d : Date) (h : d.Valid) :
    parseDate (formatDate d) = some d :=
  parseDateChars_format d h

/-! ### Data model

`EntryDict` is the dictionary shape the app passes around (`new_entry` in
`main.py`, the row dictionaries built in `utils.save_data` and
`sync_from_csv`): timestamp fields as strings, plus name and the two numeric
columns.  `Entry` is the logical dataframe record with parsed timestamp
fields.  `StoredRow` is a remote-table row, an `Entry` plus the assigned
`id`.  The remote table is a row list plus an availability flag (`false`
models an outage: every network call raises) and the id the storage engine
assigns next. -/

/-- Dictionary form of one food-log record, as built by the app before a
network write or a CSV write. -/
structure EntryDict where
  datetime : String
  date : String
  food_name : String
  calories : Int
  protein : Int
deriving DecidableEq, Repr

/-- Logical dataframe record with parsed timestamp fields. -/
structure Entry where
  datetime : DateTime
  date : Date
  food_name : String
  calories : Int
  protein : Int
deriving DecidableEq, Repr

/-- Remote-table row: a record plus the backend-assigned `id`. -/
structure StoredRow where
  id : Int
  datetime : DateTime
  date : Date
  food_name : String
  calories : Int
  protein : Int
deriving DecidableEq, Repr

/-- State of the remote hosted table. -/
structure RemoteState where
  available : Bool
  rows : List StoredRow
  nextId : Int
deriving DecidableEq, Repr

/-- Overall persistent state: the remote table plus the local CSV file
(`data/food_log.csv`), `none` when the file does not exist.  The file is a
list of rows in dictionary (string) form, which is what `to_csv` writes. -/
structure SysState where
  remote : RemoteState
  csv : Option (List EntryDict)
deriving DecidableEq, Repr

/-- Dictionary built from a dataframe row by `save_data`
(`row['datetime'].strftime('%Y-%m-%d %H:%M:%S')`, `row['date'].strftime('%Y-%m-%d')`,
plus the three remaining columns); also the shape `to_csv` writes. -/
def entryToDict (e : Entry) : EntryDict :=
  ⟨formatDateTime e.datetime, formatDate e.date, e.food_name, e.calories, e.protein⟩

/-- Parse a dictionary/CSV row back into a logical record, as the
`load_data` CSV branch does with `pd.to_datetime` on both timestamp columns;
`none` when either column is unparsable (the whole load raises). -/
def dictToEntry (d : EntryDict) : Option Entry :=
  match parseDateTime d.datetime, parseDate d.date with
  | some dt, some dd => some ⟨dt, dd, d.food_name, d.calories, d.protein⟩
  | _, _ => none

/-- Projection of a remote row to the dataframe record `save_data` rebuilds
from it (the `id` column is dropped when re-inserting). -/
def rowToEntry (r : StoredRow) : Entry :=
  ⟨r.datetime, r.date, r.food_name, r.calories, r.protein⟩

/-! ### SupabaseManager (src/supabase_client.py) -/

/-- Newest-first comparison used by `order("datetime", desc=True)`. -/
def byDatetimeDesc (a b : StoredRow) : Prop :=
  DateTime.le b.datetime a.datetime

instance : DecidableRel byDatetimeDesc := fun a b => by
  unfold byDatetimeDesc; exact inferInstance

instance : IsTotal StoredRow byDatetimeDesc :=
  ⟨fun a b => (DateTime.le_total b.datetime a.datetime).elim Or.inl Or.inr⟩

instance : IsTrans StoredRow byDatetimeDesc :=
  ⟨fun _ _ _ hab hbc => DateTime.le_trans hbc hab⟩

/-- Model of `SupabaseManager.insert_entry`: normalize the two timestamp
strings with `pd.to_datetime` (raising on an unparsable one), then perform
the remote insert, which raises during an outage and otherwise appends the
row with the next assigned id.  `Except.error` is a raised exception. -/
def insert_entry (st : RemoteState) (e : EntryDict) : Except Unit (RemoteState × StoredRow) :=
  match parseDateTime e.datetime, parseDate e.date with
  | some dt, some dd =>
    if st.available then
      let row : StoredRow := ⟨st.nextId, dt, dd, e.food_name, e.calories, e.protein⟩
      Except.ok ({ st with rows := st.rows ++ [row], nextId := st.nextId + 1 }, row)
    else Except.error ()
  | _, _ => Except.error ()

/-- Model of `SupabaseManager.get_all_entries`: select every row ordered by
`datetime` descending; any exception is caught and the empty list returned. -/
def get_all_entries (st : RemoteState) : List StoredRow :=
  if st.available then List.insertionSort byDatetimeDesc st.rows else []

/-- Model of `SupabaseManager.get_entries_for_today`: rows whose `date`
column equals the current day, ordered by `datetime` descending; empty on
any exception.  The clock is passed explicitly. -/
def get_entries_for_today (st : RemoteState) (today : Date) : List StoredRow :=
  if st.available then
    List.insertionSort byDatetimeDesc (st.rows.filter fun r => decide (r.date = today))
  else []

/-- Model of `SupabaseManager.get_entries_by_date_range`: rows whose `date`
column is within the inclusive range, ordered by `datetime` descending;
empty on any exception. -/
def get_entries_by_date_range (st : RemoteState) (startDate endDate : Date) : List StoredRow :=
  if st.available then
    List.insertionSort byDatetimeDesc
      (st.rows.filter fun r => decide (startDate.le r.date ∧ r.date.le endDate))
  else []

/-- Fields of one update call; `none` means the key is absent from the
`updates` dictionary. -/
structure UpdateDict where
  datetime : Option String
  date : Option String
  food_name : Option String
  calories : Option Int
  protein : Option Int
deriving DecidableEq, Repr

/-- Replace the fields named by `u` in row `r`. -/
def applyUpdate (u : UpdateDict) (odt : Option DateTime) (odd : Option Date)
    (r : StoredRow) : StoredRow :=
  { r with
    datetime := odt.getD r.datetime
    date := odd.getD r.date
    food_name := u.food_name.getD r.food_name
    calories := u.calories.getD r.calories
    protein := u.protein.getD r.protein }

/-- Model of `SupabaseManager.update_entry`: normalize `datetime` and `date`
when present (an unparsable string raises before anything is touched), then
run the remote update, which raises during an outage and otherwise rewrites
every row matching the id and returns the first rewritten row (`none`
printed as "No entry found" when nothing matched).  The returned state is
the table after the call. -/
def update_entry (st : RemoteState) (entry_id : Int) (u : UpdateDict) :
    RemoteState × Except Unit (Option StoredRow) :=
  let pdt : Except Unit (Option DateTime) :=
    match u.datetime with
    | none => Except.ok none
    | some s => match parseDateTime s with
      | some dt => Except.ok (some dt)
      | none => Except.error ()
  let pdd : Except Unit (Option Date) :=
    match u.date with
    | none => Except.ok none
    | some s => match parseDate s with
      | some dd => Except.ok (some dd)
      | none => Except.error ()
  match pdt, pdd with
  | Except.ok odt, Except.ok odd =>
    if st.available then
      let rows' := st.rows.map fun r =>
        if r.id = entry_id then applyUpdate u odt odd r else r
      ({ st with rows := rows' },
        Except.ok ((rows'.filter fun r => decide (r.id = entry_id)).head?))
    else (st, Except.error ())
  | _, _ => (st, Except.error ())

/-- Model of `SupabaseManager.delete_entry`: delete every row matching the
id; returns `true` exactly when the response contains a deleted row, and
`false` both for "no entry found with that id" and for a raised exception
(outage), in which case nothing is removed. -/
def delete_entry (st : RemoteState) (entry_id : Int) : RemoteState × Bool :=
  if st.available then
    let deleted := st.rows.filter fun r => decide (r.id = entry_id)
    ({ st with rows := st.rows.filter fun r => decide (r.id ≠ entry_id) },
      !deleted.isEmpty)
  else (st, false)

/-! ### utils.py -/

/-- Model of `utils.load_data`: fetch all entries from the remote table
(`get_all_entries` swallows its own exceptions, so a plain outage yields the
empty dataframe rather than the CSV branch) and present them as logical
records.  The CSV branch is reached only when something outside
`get_all_entries` raises, e.g. missing credentials; that mode is covered
separately by `readCsvRows`. -/
def load_data (st : SysState) : List Entry :=
  (get_all_entries st.remote).map rowToEntry

/-- Model of the write loop in `utils.save_data`: insert the given rows one
by one; on the first raised exception stop, keeping the inserts that already
landed, and report failure. -/
def saveDataGo (rst : RemoteState) : List Entry → RemoteState × Bool
  | [] => (rst, true)
  | e :: rest =>
    match insert_entry rst (entryToDict e) with
    | Except.ok (rst', _) => saveDataGo rst' rest
    | Except.error _ => (rst, false)

/-- Model of `utils.save_data`: count the existing remote entries, insert
only the dataframe rows beyond that count (`df.tail(len(df) - existing_count)`),
and return `True`; on any exception fall back to overwriting the local CSV
file with the whole dataframe and return `False`. -/
def save_data (st : SysState) (df : List Entry) : SysState × Bool :=
  let existing_count := (get_all_entries st.remote).length
  let new_entries := if existing_count < df.length then df.drop existing_count else []
  match saveDataGo st.remote new_entries with
  | (rst', true) => ({ st with remote := rst' }, true)
  | (rst', false) => ({ remote := rst', csv := some (df.map entryToDict) }, false)

/-- Distinct elements of a list in order of first occurrence, skipping those
already seen; `firstOccurrencesAux seen l` is the recursion with the
already-seen accumulator. -/
def firstOccurrencesAux {α : Type} [DecidableEq α] (seen : List α) : List α → List α
  | [] => []
  | x :: xs =>
    if x ∈ seen then firstOccurrencesAux seen xs
    else x :: firstOccurrencesAux (x :: seen) xs

/-- Distinct elements of a list in order of first occurrence. -/
def firstOccurrences {α : Type} [DecidableEq α] (l : List α) : List α :=
  firstOccurrencesAux [] l

/-- Group totals for one date: the pandas `agg` sums of the `calories` and
`protein` columns over the rows of that date, in row order. -/
def dateTotals (df : List Entry) (d : Date) : Int × Int :=
  let group := df.filter fun e => decide (e.date = d)
  ((group.map Entry.calories).sum, (group.map Entry.protein).sum)

instance : DecidableRel Date.le := fun _ _ => inferInstance

/-- Model of `utils.calculate_daily_totals`:
`df.groupby('date').agg({'calories': 'sum', 'protein': 'sum'}).to_dict('index')`.
The resulting dict is embedded as an association list in the groupby key
order (distinct dates present, sorted ascending, pandas `sort=True`
default), each date paired with its two sums. -/
def calculate_daily_totals (df : List Entry) : List (Date × Int × Int) :=
  (List.insertionSort Date.le (firstOccurrences (df.map Entry.date))).map
    fun d => (d, dateTotals df d)

/-! ### main.py -/

/-- Outcome surfaced to the user by the Add Entry handler. -/
inductive AddOutcome where
  | remoteSuccess
  | degradedSuccess
  | validationError
deriving DecidableEq, Repr

/-- Model of the Add Entry handler (`main.py`, the `st.button("Add Entry")`
block): validate the form, build `new_entry` with canonical `strftime`
strings from the combined picker datetime, try `insert_entry` directly; on
any exception fall back to `load_data`, append the new record, `save_data`
(whose return value is ignored), and still report success.  The outcome is
which `st.success`/`st.error` message the user sees. -/
def addEntryHandler (st : SysState) (entry_datetime : DateTime)
    (food_name : String) (calories protein : Int) : SysState × AddOutcome :=
  if food_name ≠ "" ∧ 0 ≤ calories ∧ 0 ≤ protein then
    let new_entry : EntryDict :=
      ⟨formatDateTime entry_datetime, formatDate entry_datetime.dateOf,
        food_name, calories, protein⟩
    match insert_entry st.remote new_entry with
    | Except.ok (rst', _) => ({ st with remote := rst' }, AddOutcome.remoteSuccess)
    | Except.error _ =>
      let df := load_data st ++
        [⟨entry_datetime, entry_datetime.dateOf, food_name, calories, protein⟩]
      let st' := (save_data st df).1
      (st', AddOutcome.degradedSuccess)
  else (st, AddOutcome.validationError)

/-- Outcome surfaced to the user by the Save button of the edit form. -/
inductive EditOutcome where
  | invalidDatetime
  | updated
  | missingId
  | degradedFallback
deriving DecidableEq, Repr

/-- Replace the fields of the dataframe row at position `idx`, the
`df.loc[idx, ...] = ...` assignments of the CSV fallback. -/
def setRowAt (df : List Entry) (idx : Nat) (f : Entry → Entry) : List Entry :=
  match df, idx with
  | [], _ => []
  | x :: xs, 0 => f x :: xs
  | x :: xs, Nat.succ i => x :: setRowAt xs i f

/-- Model of the Save button handler of the edit form (`main.py`): parse the
edited datetime with `errors="coerce"` and reject the whole edit when it is
unparsable; otherwise build the updates dictionary with canonical strings
(recomputing `date` from the parsed value) and call `update_entry`; on a
raised exception fall back to editing the dataframe row in place and
`save_data`.  The edit targets dataframe position `idx` whose remote id is
`rowId` (`row.get('id')`, absent for CSV-born rows). -/
def saveEditHandler (st : SysState) (df : List Entry) (idx : Nat) (rowId : Option Int)
    (new_food_name new_datetime : String) (new_calories new_protein : Int) :
    SysState × EditOutcome :=
  match parseDateTime new_datetime with
  | none => (st, EditOutcome.invalidDatetime)
  | some parsed_dt =>
    match rowId with
    | none => (st, EditOutcome.missingId)
    | some entry_id =>
      let updates : UpdateDict :=
        ⟨some (formatDateTime parsed_dt), some (formatDate parsed_dt.dateOf),
          some new_food_name, some new_calories, some new_protein⟩
      match update_entry st.remote entry_id updates with
      | (rst', Except.ok _) => ({ st with remote := rst' }, EditOutcome.updated)
      | (_, Except.error _) =>
        let df' := setRowAt df idx fun e =>
          { e with
            food_name := new_food_name
            datetime := parsed_dt
            date := parsed_dt.dateOf
            calories := new_calories
            protein := new_protein }
        ((save_data st df').1, EditOutcome.degradedFallback)

/-- Model of the History tab datetime mask:
`(df['datetime'] >= start_ts) & (df['datetime'] <= end_ts)` followed by
`df.loc[mask]`, keeping rows in order. -/
def filter_by_range (df : List Entry) (start_ts end_ts : DateTime) : List Entry :=
  df.filter fun e => decide (start_ts.le e.datetime ∧ e.datetime.le end_ts)

instance : DecidableRel (fun (p q : String × Nat) => q.2 ≤ p.2) :=
  fun p q => Nat.decLe q.2 p.2

/-- Model of `Series.value_counts()` on the `food_name` column: one
`(value, count)` pair per distinct value — the hash table yields keys in
first-occurrence order — then sorted by count descending; pandas sorts with
a stable kind and reverses both before and after for the descending
direction, so ties keep first-occurrence order. -/
def value_counts (foods : List String) : List (String × Nat) :=
  List.insertionSort (fun p q => q.2 ≤ p.2)
    ((firstOccurrences foods).map fun k => (k, foods.count k))

/-- Meal-distribution statistic of the History tab,
`value_counts().head(limit)`; the call site uses `limit = 10`. -/
def most_common_foods (foods : List String) (limit : Nat) : List (String × Nat) :=
  (value_counts foods).take limit

/-! ### Local CSV file -/

/-- Rows written by `df.to_csv` for a dataframe of logical records: each
timestamp cell is the canonical string rendering. -/
def writeCsvRows (df : List Entry) : List EntryDict :=
  df.map entryToDict

/-- Model of the CSV branch of `utils.load_data`: `pd.read_csv` followed by
`pd.to_datetime` over both timestamp columns; a single unparsable cell makes
the whole load raise, hence `none`. -/
def readCsvRows : List EntryDict → Option (List Entry)
  | [] => some []
  | r :: rest =>
    match dictToEntry r, readCsvRows rest with
    | some e, some es => some (e :: es)
    | _, _ => none

/-! ### Helper lemmas -/

theorem mem_firstOccurrencesAux {α : Type} [DecidableEq α] :
    ∀ (l : List α) (seen : List α) (a : α),
      a ∈ firstOccurrencesAux seen l ↔ a ∈ l ∧ a ∉ seen
  | [], seen, a => by simp [firstOccurrencesAux]
  | x :: xs, seen, a => by
    rw [firstOccurrencesAux]
    split_ifs with hx
    · rw [mem_firstOccurrencesAux xs seen a]
      simp only [List.mem_cons]
      constructor
      · rintro ⟨h1, h2⟩
        exact ⟨Or.inr h1, h2⟩
      · rintro ⟨h1 | h1, h2⟩
        · exact absurd (h1 ▸ hx) h2
        · exact ⟨h1, h2⟩
    · by_cases hax : a = x
      · subst hax
        simp [hx]
      · simp only [List.mem_cons, hax, false_or,
          mem_firstOccurrencesAux xs (x :: seen) a]

theorem nodup_firstOccurrencesAux {α : Type} [DecidableEq α] :
    ∀ (l : List α) (seen : List α), (firstOccurrencesAux seen l).Nodup
  | [], _ => by simp [firstOccurrencesAux]
  | x :: xs, seen => by
    rw [firstOccurrencesAux]
    split_ifs with hx
    · exact nodup_firstOccurrencesAux xs seen
    · refine List.nodup_cons.mpr ⟨?_, nodup_firstOccurrencesAux xs (x :: seen)⟩
      intro hmem
      exact ((mem_firstOccurrencesAux xs (x :: seen) x).mp hmem).2
        (List.mem_cons_self x seen)

theorem mem_firstOccurrences {α : Type} [DecidableEq α] {l : List α} {a : α} :
    a ∈ firstOccurrences l ↔ a ∈ l := by
  rw [firstOccurrences, mem_firstOccurrencesAux]
  simp

theorem nodup_firstOccurrences {α : Type} [DecidableEq α] (l : List α) :
    (firstOccurrences l).Nodup :=
  nodup_firstOccurrencesAux l []

theorem pairwise_indexOf_firstOccurrencesAux {α : Type} [DecidableEq α] :
    ∀ (l : List α) (seen : List α),
      (firstOccurrencesAux seen l).Pairwise fun a b => l.indexOf a < l.indexOf b
  | [], _ => by simp [firstOccurrencesAux]
  | x :: xs, seen => by
    rw [firstOccurrencesAux]
    split_ifs with hx
    · refine (pairwise_indexOf_firstOccurrencesAux xs seen).imp_of_mem ?_
      intro a b hha hhb hab
      have ha' := (mem_firstOccurrencesAux xs seen a).mp hha
      have hb' := (mem_firstOccurrencesAux xs seen b).mp hhb
      have hxa : x ≠ a := fun h => ha'.2 (h ▸ hx)
      have hxb : x ≠ b := fun h => hb'.2 (h ▸ hx)
      rw [List.indexOf_cons_ne _ hxa, List.indexOf_cons_ne _ hxb]
      omega
    · refine List.pairwise_cons.mpr ⟨?_, ?_⟩
      · intro b hb
        have hb' := (mem_firstOccurrencesAux xs (x :: seen) b).mp hb
        have hxb : x ≠ b := fun h => hb'.2 (h ▸ List.mem_cons_self x seen)
        rw [List.indexOf_cons_self, List.indexOf_cons_ne _ hxb]
        exact Nat.succ_pos _
      · refine (pairwise_indexOf_firstOccurrencesAux xs (x :: seen)).imp_of_mem ?_
        intro a b hha hhb hab
        have ha' := (mem_firstOccurrencesAux xs (x :: seen) a).mp hha
        have hb' := (mem_firstOccurrencesAux xs (x :: seen) b).mp hhb
        have hxa : x ≠ a := fun h => ha'.2 (h ▸ List.mem_cons_self x seen)
        have hxb : x ≠ b := fun h => hb'.2 (h ▸ List.mem_cons_self x seen)
        rw [List.indexOf_cons_ne _ hxa, List.indexOf_cons_ne _ hxb]
        omega

theorem pairwise_indexOf_firstOccurrences {α : Type} [DecidableEq α] (l : List α) :
    (firstOccurrences l).Pairwise fun a b => l.indexOf a < l.indexOf b :=
  pairwise_indexOf_firstOccurrencesAux l []

theorem pairwise_lex_orderedInsert {α : Type} (c i : α → Nat)
    [DecidableRel fun (p q : α) => c q ≤ c p] (a : α) (l : List α)
    (ha : ∀ q ∈ l, i a < i q)
    (hs : l.Pairwise fun p q => c q < c p ∨ (c p = c q ∧ i p < i q)) :
    (l.orderedInsert (fun p q => c q ≤ c p) a).Pairwise
      fun p q => c q < c p ∨ (c p = c q ∧ i p < i q) := by
  induction l with
  | nil => simp
  | cons b t ih =>
    rw [List.orderedInsert]
    split_ifs with hr
    · refine List.pairwise_cons.mpr ⟨?_, hs⟩
      intro x hx
      have hia := ha x hx
      rcases Nat.lt_or_ge (c x) (c a) with h | h
      · exact Or.inl h
      · refine Or.inr ⟨?_, hia⟩
        rcases List.mem_cons.mp hx with rfl | hxt
        · omega
        · have hbx := (List.pairwise_cons.mp hs).1 x hxt
          rcases hbx with h1 | ⟨h1, _⟩ <;> omega
    · have hs' := List.pairwise_cons.mp hs
      refine List.pairwise_cons.mpr
        ⟨?_, ih (fun q hq => ha q (List.mem_cons_of_mem b hq)) hs'.2⟩
      intro y hy
      rcases (List.mem_orderedInsert _).mp hy with rfl | hyt
      · exact Or.inl (by omega)
      · exact hs'.1 y hyt

theorem pairwise_lex_insertionSort {α : Type} (c i : α → Nat)
    [DecidableRel fun (p q : α) => c q ≤ c p] (l : List α)
    (hl : l.Pairwise fun p q => i p < i q) :
    (List.insertionSort (fun p q => c q ≤ c p) l).Pairwise
      fun p q => c q < c p ∨ (c p = c q ∧ i p < i q) := by
  induction l with
  | nil => simp
  | cons a t ih =>
    rw [List.insertionSort]
    have hp := List.pairwise_cons.mp hl
    refine pairwise_lex_orderedInsert c i a _ ?_ (ih hp.2)
    intro q hq
    exact hp.1 q ((List.perm_insertionSort _ t).mem_iff.mp hq)

/-- Rows appended to the remote table when a list of records is inserted
starting from a given id. -/
def insertedRows (startId : Int) : List Entry → List StoredRow
  | [] => []
  | e :: rest =>
    ⟨startId, e.datetime, e.date, e.food_name, e.calories, e.protein⟩ ::
      insertedRows (startId + 1) rest

theorem saveDataGo_ok (es : List Entry) (rst : RemoteState) (hav : rst.available = true)
    (hval : ∀ e ∈ es, e.datetime.Valid ∧ e.date.Valid) :
    saveDataGo rst es =
      ({ rst with
          rows := rst.rows ++ insertedRows rst.nextId es
          nextId := rst.nextId + es.length }, true) := by
  induction es generalizing rst with
  | nil => simp [saveDataGo, insertedRows]
  | cons e rest ih =>
    have hdt := (hval e (List.mem_cons_self _ _)).1
    have hdd := (hval e (List.mem_cons_self _ _)).2
    rw [saveDataGo]
    simp only [insert_entry, entryToDict,
      parseDateTime_formatDateTime e.datetime hdt, parseDate_formatDate e.date hdd,
      hav, if_true]
    rw [ih _ rfl (fun e' he' => hval e' (List.mem_cons_of_mem _ he'))]
    dsimp only
    simp only [insertedRows, List.append_assoc, List.singleton_append,
      List.cons_append, List.nil_append, List.length_cons]
    have hn : rst.nextId + 1 + (rest.length : Int) = rst.nextId + ((rest.length : Int) + 1) := by
      ring
    push_cast
    rw [hn]

theorem length_get_all_entries (st : RemoteState) (hav : st.available = true) :
    (get_all_entries st).length = st.rows.length := by
  simp [get_all_entries, hav, (List.perm_insertionSort _ _).length_eq]

theorem get_all_entries_unavailable (st : RemoteState) (h : st.available = false) :
    get_all_entries st = [] := by
  simp [get_all_entries, h]

theorem insert_entry_unavailable (st : RemoteState) (e : EntryDict)
    (h : st.available = false) : insert_entry st e = Except.error () := by
  unfold insert_entry
  cases parseDateTime e.datetime <;> cases parseDate e.date <;> simp [h]

/-! ### Claim theorems -/

/-- C1: for every entry, a logical write that fails against the remote
backend (the remote insert path raising, here a simulated outage) still
persists the entry to the local file and reports degraded-mode success to
the caller: the Add Entry handler ends with a success outcome, not a
failure outcome or an unhandled error, and the CSV file afterwards contains
the new entry. -/
theorem add_entry_remote_failure_degraded_success
    (st : SysState) (dtv : DateTime) (nm : String) (cal prot : Int)
    (hdown : st.remote.available = false)
    (hnm : nm ≠ "") (hc : 0 ≤ cal) (hp : 0 ≤ prot) :
    (addEntryHandler st dtv nm cal prot).2 = AddOutcome.degradedSuccess ∧
    ∃ fileRows, (addEntryHandler st dtv nm cal prot).1.csv = some fileRows ∧
      (⟨formatDateTime dtv, formatDate dtv.dateOf, nm, cal, prot⟩ : EntryDict) ∈ fileRows := by
  have hins := insert_entry_unavailable st.remote
    ⟨formatDateTime dtv, formatDate dtv.dateOf, nm, cal, prot⟩ hdown
  have hres : addEntryHandler st dtv nm cal prot =
      ({ remote := st.remote
         csv := some [⟨formatDateTime dtv, formatDate dtv.dateOf, nm, cal, prot⟩] },
        AddOutcome.degradedSuccess) := by
    unfold addEntryHandler
    rw [if_pos ⟨hnm, hc, hp⟩]
    simp only [hins]
    simp [load_data, get_all_entries_unavailable st.remote hdown, save_data, saveDataGo,
      insert_entry_unavailable _ _ hdown, entryToDict]
  rw [hres]
  exact ⟨rfl, [⟨formatDateTime dtv, formatDate dtv.dateOf, nm, cal, prot⟩], rfl,
    List.mem_cons_self _ _⟩

theorem add_entry_remote_failure_degraded_success_witness :
    (addEntryHandler ⟨⟨false, [], 1⟩, none⟩ ⟨2024, 1, 1, 8, 0, 0⟩ "Oatmeal" 300 10).2 =
      AddOutcome.degradedSuccess ∧
    ∃ fileRows,
      (addEntryHandler ⟨⟨false, [], 1⟩, none⟩ ⟨2024, 1, 1, 8, 0, 0⟩ "Oatmeal" 300 10).1.csv =
        some fileRows ∧
      (⟨formatDateTime ⟨2024, 1, 1, 8, 0, 0⟩, formatDate (DateTime.dateOf ⟨2024, 1, 1, 8, 0, 0⟩),
        "Oatmeal", 300, 10⟩ : EntryDict) ∈ fileRows :=
  add_entry_remote_failure_degraded_success ⟨⟨false, [], 1⟩, none⟩ ⟨2024, 1, 1, 8, 0, 0⟩
    "Oatmeal" 300 10 rfl (by decide) (by decide) (by decide)

/-- C2 counterexample: the store's write path does not recompute `date` from
`datetime` — `insert_entry` only reformats the caller-supplied `date` — so an
insert whose dictionary carries `datetime = 2024-01-01 08:00:00` together
with the independent `date = 2024-03-05` persists a row whose stored `date`
differs from the calendar date of its stored `datetime`. -/
theorem insert_entry_stores_mismatched_pair :
    insert_entry ⟨true, [], 1⟩
        ⟨"2024-01-01 08:00:00", "2024-03-05", "Oatmeal", 300, 10⟩ =
      Except.ok
        (⟨true, [⟨1, ⟨2024, 1, 1, 8, 0, 0⟩, ⟨2024, 3, 5⟩, "Oatmeal", 300, 10⟩], 2⟩,
          ⟨1, ⟨2024, 1, 1, 8, 0, 0⟩, ⟨2024, 3, 5⟩, "Oatmeal", 300, 10⟩) ∧
    (⟨2024, 3, 5⟩ : Date) ≠ DateTime.dateOf ⟨2024, 1, 1, 8, 0, 0⟩ := by
  constructor
  · rfl
  · decide

/-- C2 amended: the stored `date` equals the calendar date of the stored
`datetime` whenever the caller supplies a consistent pair — which both UI
write paths do, since the Add Entry handler and the edit-save handler derive
both strings from one parsed datetime value.  First conjunct: a consistent
insert stores a consistent row.  Second conjunct: after an update whose
`updates` dictionary carries a consistent datetime/date pair (the shape the
edit handler builds), every row is either untouched or consistent.  Third
conjunct: the canonical strings the handlers build from one parsed datetime
form such a consistent pair. -/
theorem consistent_input_preserves_date_invariant :
    (∀ (st : RemoteState) (e : EntryDict) (dt : DateTime)
        (rst : RemoteState) (row : StoredRow),
      parseDateTime e.datetime = some dt →
      parseDate e.date = some dt.dateOf →
      insert_entry st e = Except.ok (rst, row) →
      row.date = row.datetime.dateOf) ∧
    (∀ (st : RemoteState) (entry_id : Int) (u : UpdateDict)
        (sdt sd : String) (dt : DateTime),
      u.datetime = some sdt → parseDateTime sdt = some dt →
      u.date = some sd → parseDate sd = some dt.dateOf →
      ∀ r ∈ (update_entry st entry_id u).1.rows,
        r ∈ st.rows ∨ r.date = r.datetime.dateOf) ∧
    (∀ dtv : DateTime, dtv.Valid →
      parseDateTime (formatDateTime dtv) = some dtv ∧
      parseDate (formatDate dtv.dateOf) = some dtv.dateOf) := by
  refine ⟨?_, ?_, ?_⟩
  · intro st e dt rst row h1 h2 hok
    unfold insert_entry at hok
    rw [h1, h2] at hok
    dsimp only at hok
    by_cases hav : st.available = true
    · rw [if_pos hav] at hok
      simp only [Except.ok.injEq, Prod.mk.injEq] at hok
      rw [← hok.2]
    · rw [if_neg hav] at hok
      simp at hok
  · intro st entry_id u sdt sd dt hu1 hp1 hu2 hp2 r hr
    unfold update_entry at hr
    rw [hu1] at hr
    dsimp only at hr
    rw [hp1] at hr
    dsimp only at hr
    rw [hu2] at hr
    dsimp only at hr
    rw [hp2] at hr
    dsimp only at hr
    by_cases hav : st.available = true
    · simp only [if_pos hav] at hr
      rcases List.mem_map.mp hr with ⟨r0, hr0, heq⟩
      by_cases hid : r0.id = entry_id
      · right
        rw [if_pos hid] at heq
        rw [← heq]
        rfl
      · left
        rw [if_neg hid] at heq
        exact heq ▸ hr0
    · simp only [if_neg hav] at hr
      exact Or.inl hr
  · intro dtv h
    exact ⟨parseDateTime_formatDateTime dtv h,
      parseDate_formatDate dtv.dateOf h.dateOf⟩

theorem consistent_input_preserves_date_invariant_witness :
    (⟨1, ⟨2024, 1, 1, 8, 0, 0⟩, ⟨2024, 1, 1⟩, "Oatmeal", 300, 10⟩ : StoredRow).date =
      (⟨1, ⟨2024, 1, 1, 8, 0, 0⟩, ⟨2024, 1, 1⟩, "Oatmeal", 300, 10⟩ : StoredRow).datetime.dateOf :=
  consistent_input_preserves_date_invariant.1 ⟨true, [], 1⟩
    ⟨"2024-01-01 08:00:00", "2024-01-01", "Oatmeal", 300, 10⟩ ⟨2024, 1, 1, 8, 0, 0⟩
    ⟨true, [⟨1, ⟨2024, 1, 1, 8, 0, 0⟩, ⟨2024, 1, 1⟩, "Oatmeal", 300, 10⟩], 2⟩
    ⟨1, ⟨2024, 1, 1, 8, 0, 0⟩, ⟨2024, 1, 1⟩, "Oatmeal", 300, 10⟩
    (by decide) (by decide) rfl

/-- C3: when `save_data` succeeds against the remote backend (the backend is
up, and all rows come from real pandas timestamps, hence valid fields), it
returns `True`, leaves the CSV file untouched, and inserts exactly the
dataframe rows beyond the existing remote count `n = |rows|`, in order —
`df.drop n` is the last `len(df) - n` rows when `len(df) > n` and empty
otherwise; in particular nothing is inserted (while still returning `True`)
when `len(df) ≤ n`. -/
theorem save_data_success_inserts_exactly_new_tail
    (st : SysState) (df : List Entry)
    (hav : st.remote.available = true)
    (hval : ∀ e ∈ df, e.datetime.Valid ∧ e.date.Valid) :
    (save_data st df).2 = true ∧
    (save_data st df).1.remote.rows =
      st.remote.rows ++ insertedRows st.remote.nextId (df.drop st.remote.rows.length) ∧
    (save_data st df).1.csv = st.csv ∧
    (df.length ≤ st.remote.rows.length → (save_data st df).1.remote.rows = st.remote.rows) := by
  have hlen := length_get_all_entries st.remote hav
  have hnewE : (if (get_all_entries st.remote).length < df.length
      then df.drop (get_all_entries st.remote).length else []) =
      df.drop st.remote.rows.length := by
    simp only [hlen]
    split_ifs with h
    · rfl
    · exact (List.drop_eq_nil_of_le (by omega)).symm
  have hvalN : ∀ e ∈ df.drop st.remote.rows.length, e.datetime.Valid ∧ e.date.Valid :=
    fun e he => hval e (List.mem_of_mem_drop he)
  have hres : save_data st df =
      ({ st with remote :=
          { st.remote with
              rows := st.remote.rows ++
                insertedRows st.remote.nextId (df.drop st.remote.rows.length)
              nextId := st.remote.nextId + (df.drop st.remote.rows.length).length } }, true) := by
    unfold save_data
    simp only [hnewE, saveDataGo_ok (df.drop st.remote.rows.length) st.remote hav hvalN]
  rw [hres]
  refine ⟨rfl, rfl, rfl, ?_⟩
  intro hle
  have hdrop : df.drop st.remote.rows.length = [] := List.drop_eq_nil_of_le hle
  simp only [hdrop, insertedRows, List.append_nil]

theorem save_data_success_inserts_exactly_new_tail_witness :
    (save_data
        ⟨⟨true, [⟨1, ⟨2024, 1, 1, 8, 0, 0⟩, ⟨2024, 1, 1⟩, "Oatmeal", 300, 10⟩], 2⟩, none⟩
        [⟨⟨2024, 1, 1, 8, 0, 0⟩, ⟨2024, 1, 1⟩, "Oatmeal", 300, 10⟩,
          ⟨⟨2024, 1, 1, 12, 30, 0⟩, ⟨2024, 1, 1⟩, "Chicken Salad", 450, 35⟩]).2 = true ∧
    (save_data
        ⟨⟨true, [⟨1, ⟨2024, 1, 1, 8, 0, 0⟩, ⟨2024, 1, 1⟩, "Oatmeal", 300, 10⟩], 2⟩, none⟩
        [⟨⟨2024, 1, 1, 8, 0, 0⟩, ⟨2024, 1, 1⟩, "Oatmeal", 300, 10⟩,
          ⟨⟨2024, 1, 1, 12, 30, 0⟩, ⟨2024, 1, 1⟩, "Chicken Salad", 450, 35⟩]).1.remote.rows =
      [⟨1, ⟨2024, 1, 1, 8, 0, 0⟩, ⟨2024, 1, 1⟩, "Oatmeal", 300, 10⟩] ++
        insertedRows 2
          ([⟨⟨2024, 1, 1, 8, 0, 0⟩, ⟨2024, 1, 1⟩, "Oatmeal", 300, 10⟩,
            ⟨⟨2024, 1, 1, 12, 30, 0⟩, ⟨2024, 1, 1⟩, "Chicken Salad", 450, 35⟩].drop 1) ∧
    (save_data
        ⟨⟨true, [⟨1, ⟨2024, 1, 1, 8, 0, 0⟩, ⟨2024, 1, 1⟩, "Oatmeal", 300, 10⟩], 2⟩, none⟩
        [⟨⟨2024, 1, 1, 8, 0, 0⟩, ⟨2024, 1, 1⟩, "Oatmeal", 300, 10⟩,
          ⟨⟨2024, 1, 1, 12, 30, 0⟩, ⟨2024, 1, 1⟩, "Chicken Salad", 450, 35⟩]).1.csv = none ∧
    (([⟨⟨2024, 1, 1, 8, 0, 0⟩, ⟨2024, 1, 1⟩, "Oatmeal", 300, 10⟩,
        ⟨⟨2024, 1, 1, 12, 30, 0⟩, ⟨2024, 1, 1⟩, "Chicken Salad", 450, 35⟩] : List Entry).length ≤ 1 →
      (save_data
          ⟨⟨true, [⟨1, ⟨2024, 1, 1, 8, 0, 0⟩, ⟨2024, 1, 1⟩, "Oatmeal", 300, 10⟩], 2⟩, none⟩
          [⟨⟨2024, 1, 1, 8, 0, 0⟩, ⟨2024, 1, 1⟩, "Oatmeal", 300, 10⟩,
            ⟨⟨2024, 1, 1, 12, 30, 0⟩, ⟨2024, 1, 1⟩, "Chicken Salad", 450, 35⟩]).1.remote.rows =
        [⟨1, ⟨2024, 1, 1, 8, 0, 0⟩, ⟨2024, 1, 1⟩, "Oatmeal", 300, 10⟩]) :=
  save_data_success_inserts_exactly_new_tail
    ⟨⟨true, [⟨1, ⟨2024, 1, 1, 8, 0, 0⟩, ⟨2024, 1, 1⟩, "Oatmeal", 300, 10⟩], 2⟩, none⟩
    [⟨⟨2024, 1, 1, 8, 0, 0⟩, ⟨2024, 1, 1⟩, "Oatmeal", 300, 10⟩,
      ⟨⟨2024, 1, 1, 12, 30, 0⟩, ⟨2024, 1, 1⟩, "Chicken Salad", 450, 35⟩]
    rfl (by decide)

/-- C4: `calculate_daily_totals` groups the entries by their `date`, sums
`calories` and `protein` independently per date (first conjunct: a dict
entry for a date exists exactly when the date is present, and then carries
the two independent sums over that date's rows), produces exactly one
result entry per distinct date (second conjunct: the dict keys are
duplicate-free), and the claimed two-entry scenario on `2024-01-01` yields
totals `(750, 45)` (third conjunct). -/
theorem calculate_daily_totals_spec :
    (∀ (df : List Entry) (d : Date) (c p : Int),
      (d, c, p) ∈ calculate_daily_totals df ↔
        ((∃ x ∈ df, x.date = d) ∧
          c = ((df.filter fun x => decide (x.date = d)).map Entry.calories).sum ∧
          p = ((df.filter fun x => decide (x.date = d)).map Entry.protein).sum)) ∧
    (∀ df : List Entry, ((calculate_daily_totals df).map fun t => t.1).Nodup) ∧
    calculate_daily_totals
        [⟨⟨2024, 1, 1, 8, 0, 0⟩, ⟨2024, 1, 1⟩, "Oatmeal", 300, 10⟩,
          ⟨⟨2024, 1, 1, 12, 30, 0⟩, ⟨2024, 1, 1⟩, "Chicken Salad", 450, 35⟩] =
      [(⟨2024, 1, 1⟩, 750, 45)] := by
  refine ⟨?_, ?_, ?_⟩
  · intro df d c p
    unfold calculate_daily_totals
    rw [List.mem_map]
    constructor
    · rintro ⟨d', hd', heq⟩
      simp only [Prod.mk.injEq] at heq
      obtain ⟨rfl, heq2⟩ := heq
      have hmem : d' ∈ firstOccurrences (df.map Entry.date) :=
        (List.perm_insertionSort Date.le _).mem_iff.mp hd'
      have hmem2 : d' ∈ df.map Entry.date := mem_firstOccurrences.mp hmem
      rcases List.mem_map.mp hmem2 with ⟨x, hx, hdx⟩
      unfold dateTotals at heq2
      simp only [Prod.mk.injEq] at heq2
      exact ⟨⟨x, hx, hdx⟩, heq2.1.symm, heq2.2.symm⟩
    · rintro ⟨⟨x, hx, hdx⟩, hc, hp⟩
      refine ⟨d, ?_, ?_⟩
      · exact (List.perm_insertionSort Date.le _).mem_iff.mpr
          (mem_firstOccurrences.mpr (List.mem_map.mpr ⟨x, hx, hdx⟩))
      · subst hc
        subst hp
        rfl
  · intro df
    unfold calculate_daily_totals
    rw [List.map_map]
    have hcomp : ((fun (t : Date × Int × Int) => t.1) ∘ fun d => (d, dateTotals df d)) = id :=
      rfl
    rw [hcomp, List.map_id]
    exact (List.perm_insertionSort Date.le _).symm.nodup
      (nodup_firstOccurrences (df.map Entry.date))
  · rfl

theorem calculate_daily_totals_spec_witness :
    ((⟨2024, 1, 1⟩ : Date), (750 : Int), (45 : Int)) ∈
      calculate_daily_totals
        [⟨⟨2024, 1, 1, 8, 0, 0⟩, ⟨2024, 1, 1⟩, "Oatmeal", 300, 10⟩,
          ⟨⟨2024, 1, 1, 12, 30, 0⟩, ⟨2024, 1, 1⟩, "Chicken Salad", 450, 35⟩] :=
  (calculate_daily_totals_spec.1
      [⟨⟨2024, 1, 1, 8, 0, 0⟩, ⟨2024, 1, 1⟩, "Oatmeal", 300, 10⟩,
        ⟨⟨2024, 1, 1, 12, 30, 0⟩, ⟨2024, 1, 1⟩, "Chicken Salad", 450, 35⟩]
      ⟨2024, 1, 1⟩ 750 45).mpr (by decide)

/-- C5: deleting an identifier that matches no stored record reports the
not-found outcome `false` — distinct from success `true`, never a false
success — and leaves the store's contents unchanged. -/
theorem delete_entry_not_found (st : RemoteState) (entry_id : Int)
    (h : ∀ r ∈ st.rows, r.id ≠ entry_id) :
    delete_entry st entry_id = (st, false) := by
  unfold delete_entry
  by_cases hav : st.available = true
  · rw [if_pos hav]
    have h1 : (st.rows.filter fun r => decide (r.id ≠ entry_id)) = st.rows :=
      List.filter_eq_self.mpr fun a ha => by simpa using h a ha
    have h2 : (st.rows.filter fun r => decide (r.id = entry_id)) = [] :=
      List.filter_eq_nil_iff.mpr fun a ha => by simpa using h a ha
    rw [h1, h2]
    rfl
  · rw [if_neg hav]

theorem delete_entry_not_found_witness :
    delete_entry ⟨true, [⟨1, ⟨2024, 1, 1, 8, 0, 0⟩, ⟨2024, 1, 1⟩, "Oatmeal", 300, 10⟩], 2⟩ 99 =
      (⟨true, [⟨1, ⟨2024, 1, 1, 8, 0, 0⟩, ⟨2024, 1, 1⟩, "Oatmeal", 300, 10⟩], 2⟩, false) :=
  delete_entry_not_found
    ⟨true, [⟨1, ⟨2024, 1, 1, 8, 0, 0⟩, ⟨2024, 1, 1⟩, "Oatmeal", 300, 10⟩], 2⟩ 99 (by decide)

/-- C6: an update whose timestamp field is an unparsable string is rejected
before any field of any stored record is mutated.  First conjunct:
`update_entry` raises with the table exactly as before.  Second conjunct:
the edit-save handler rejects the edit with the invalid-datetime message and
the whole persistent state unchanged (its `errors="coerce"` parse happens
before anything else). -/
theorem update_rejects_unparsable_timestamp (s : String)
    (hs : parseDateTime s = none) :
    (∀ (st : RemoteState) (entry_id : Int) (u : UpdateDict),
      u.datetime = some s → update_entry st entry_id u = (st, Except.error ())) ∧
    (∀ (st : SysState) (df : List Entry) (idx : Nat) (rowId : Option Int)
        (nm : String) (cal prot : Int),
      saveEditHandler st df idx rowId nm s cal prot = (st, EditOutcome.invalidDatetime)) := by
  constructor
  · intro st entry_id u hu
    unfold update_entry
    rw [hu]
    dsimp only
    rw [hs]
  · intro st df idx rowId nm cal prot
    unfold saveEditHandler
    rw [hs]

theorem update_rejects_unparsable_timestamp_witness :
    update_entry ⟨true, [⟨1, ⟨2024, 1, 1, 8, 0, 0⟩, ⟨2024, 1, 1⟩, "Oatmeal", 300, 10⟩], 2⟩ 1
        ⟨some "garbage", none, some "Toast", none, none⟩ =
      (⟨true, [⟨1, ⟨2024, 1, 1, 8, 0, 0⟩, ⟨2024, 1, 1⟩, "Oatmeal", 300, 10⟩], 2⟩,
        Except.error ()) ∧
    saveEditHandler ⟨⟨true, [], 1⟩, none⟩ [] 0 (some 1) "Toast" "garbage" 200 5 =
      (⟨⟨true, [], 1⟩, none⟩, EditOutcome.invalidDatetime) :=
  ⟨(update_rejects_unparsable_timestamp "garbage" rfl).1
      ⟨true, [⟨1, ⟨2024, 1, 1, 8, 0, 0⟩, ⟨2024, 1, 1⟩, "Oatmeal", 300, 10⟩], 2⟩ 1
      ⟨some "garbage", none, some "Toast", none, none⟩ rfl,
    (update_rejects_unparsable_timestamp "garbage" rfl).2
      ⟨⟨true, [], 1⟩, none⟩ [] 0 (some 1) "Toast" 200 5⟩

/-- C7: writing a set of entries to the local file and reading the file back
yields the same logical records — equal `food_name`, `calories`, `protein`
and timestamp to the second.  The file cells are the canonical
`YYYY-MM-DD HH:MM:SS` strings, so recovering the records exactly also means
the canonical datetime string is identical between write and read. -/
theorem csv_round_trip (es : List Entry)
    (h : ∀ e ∈ es, e.datetime.Valid ∧ e.date.Valid) :
    readCsvRows (writeCsvRows es) = some es := by
  induction es with
  | nil => rfl
  | cons e rest ih =>
    have hdt := (h e (List.mem_cons_self _ _)).1
    have hdd := (h e (List.mem_cons_self _ _)).2
    have hih := ih fun e' he' => h e' (List.mem_cons_of_mem _ he')
    show readCsvRows (entryToDict e :: writeCsvRows rest) = some (e :: rest)
    rw [readCsvRows]
    have hde : dictToEntry (entryToDict e) = some e := by
      unfold dictToEntry entryToDict
      dsimp only
      rw [parseDateTime_formatDateTime e.datetime hdt, parseDate_formatDate e.date hdd]
    rw [hde, hih]

theorem csv_round_trip_witness :
    readCsvRows (writeCsvRows
        [⟨⟨2024, 1, 1, 8, 0, 0⟩, ⟨2024, 1, 1⟩, "Oatmeal", 300, 10⟩,
          ⟨⟨2024, 1, 1, 12, 30, 0⟩, ⟨2024, 1, 1⟩, "Chicken Salad", 450, 35⟩]) =
      some [⟨⟨2024, 1, 1, 8, 0, 0⟩, ⟨2024, 1, 1⟩, "Oatmeal", 300, 10⟩,
        ⟨⟨2024, 1, 1, 12, 30, 0⟩, ⟨2024, 1, 1⟩, "Chicken Salad", 450, 35⟩] :=
  csv_round_trip
    [⟨⟨2024, 1, 1, 8, 0, 0⟩, ⟨2024, 1, 1⟩, "Oatmeal", 300, 10⟩,
      ⟨⟨2024, 1, 1, 12, 30, 0⟩, ⟨2024, 1, 1⟩, "Chicken Salad", 450, 35⟩] (by decide)

/-- C8: the History tab timestamp-range mask is inclusive at both bounds:
for `start ≤ end`, a row whose `datetime` equals either bound is kept, and a
row strictly outside `[start, end]` is dropped. -/
theorem filter_by_range_inclusive_bounds
    (df : List Entry) (start_ts end_ts : DateTime) (x : Entry)
    (hse : start_ts.le end_ts) (hx : x ∈ df) :
    (x.datetime = start_ts → x ∈ filter_by_range df start_ts end_ts) ∧
    (x.datetime = end_ts → x ∈ filter_by_range df start_ts end_ts) ∧
    ((x.datetime.lt start_ts ∨ end_ts.lt x.datetime) →
      x ∉ filter_by_range df start_ts end_ts) := by
  unfold filter_by_range
  refine ⟨?_, ?_, ?_⟩
  · intro hxs
    refine List.mem_filter.mpr ⟨hx, ?_⟩
    rw [hxs]
    exact decide_eq_true ⟨DateTime.le_refl start_ts, hse⟩
  · intro hxe
    refine List.mem_filter.mpr ⟨hx, ?_⟩
    rw [hxe]
    exact decide_eq_true ⟨hse, DateTime.le_refl end_ts⟩
  · intro hout hmem
    have hcond : start_ts.le x.datetime ∧ x.datetime.le end_ts :=
      of_decide_eq_true (List.mem_filter.mp hmem).2
    rcases hout with hlt | hlt
    · exact DateTime.lt_not_le hlt hcond.1
    · exact DateTime.lt_not_le hlt hcond.2

theorem filter_by_range_inclusive_bounds_witness :
    (⟨⟨2024, 1, 1, 0, 0, 0⟩, ⟨2024, 1, 1⟩, "Oatmeal", 300, 10⟩ : Entry) ∈
      filter_by_range [⟨⟨2024, 1, 1, 0, 0, 0⟩, ⟨2024, 1, 1⟩, "Oatmeal", 300, 10⟩]
        ⟨2024, 1, 1, 0, 0, 0⟩ ⟨2024, 1, 2, 0, 0, 0⟩ :=
  (filter_by_range_inclusive_bounds
      [⟨⟨2024, 1, 1, 0, 0, 0⟩, ⟨2024, 1, 1⟩, "Oatmeal", 300, 10⟩]
      ⟨2024, 1, 1, 0, 0, 0⟩ ⟨2024, 1, 2, 0, 0, 0⟩
      ⟨⟨2024, 1, 1, 0, 0, 0⟩, ⟨2024, 1, 1⟩, "Oatmeal", 300, 10⟩
      (by decide) (by decide)).1 rfl

/-- C9: the meal-distribution statistic (`value_counts().head(limit)`, the
call site using `limit = 10`) returns `(food_name, count)` pairs counting
occurrences of each food (first conjunct), ordered by count descending with
ties broken by first-seen position in the input (second conjunct, the
strict lexicographic pairwise order on count-then-first-index), truncated
to the limit (third conjunct), and the claimed example with `limit = 2`
returns exactly `[("eggs", 3), ("toast", 2)]` (fourth conjunct). -/
theorem most_common_foods_spec :
    (∀ (foods : List String) (limit : Nat) (p : String × Nat),
      p ∈ most_common_foods foods limit → p.2 = foods.count p.1 ∧ p.1 ∈ foods) ∧
    (∀ (foods : List String) (limit : Nat),
      (most_common_foods foods limit).Pairwise fun p q =>
        q.2 < p.2 ∨ (p.2 = q.2 ∧ foods.indexOf p.1 < foods.indexOf q.1)) ∧
    (∀ (foods : List String) (limit : Nat),
      (most_common_foods foods limit).length = min limit (firstOccurrences foods).length) ∧
    most_common_foods ["eggs", "eggs", "toast", "eggs", "toast"] 2 =
      [("eggs", 3), ("toast", 2)] := by
  refine ⟨?_, ?_, ?_, ?_⟩
  · intro foods limit p hp
    have hp1 : p ∈ value_counts foods := List.mem_of_mem_take hp
    unfold value_counts at hp1
    have hp2 : p ∈ (firstOccurrences foods).map fun k => (k, foods.count k) :=
      (List.perm_insertionSort _ _).mem_iff.mp hp1
    rcases List.mem_map.mp hp2 with ⟨k, hk, hkp⟩
    rw [← hkp]
    exact ⟨rfl, mem_firstOccurrences.mp hk⟩
  · intro foods limit
    have hbase : ((firstOccurrences foods).map fun k => (k, foods.count k)).Pairwise
        fun p q : String × Nat => foods.indexOf p.1 < foods.indexOf q.1 :=
      List.pairwise_map.mpr (pairwise_indexOf_firstOccurrences foods)
    have hsorted := pairwise_lex_insertionSort (fun p : String × Nat => p.2)
      (fun p : String × Nat => foods.indexOf p.1)
      ((firstOccurrences foods).map fun k => (k, foods.count k)) hbase
    exact List.Pairwise.sublist (List.take_sublist _ _) hsorted
  · intro foods limit
    unfold most_common_foods value_counts
    rw [List.length_take, (List.perm_insertionSort _ _).length_eq, List.length_map]
  · rfl

theorem most_common_foods_spec_witness :
    (("eggs", 3) : String × Nat).2 =
      ["eggs", "eggs", "toast", "eggs", "toast"].count ("eggs", 3).1 ∧
    (("eggs", 3) : String × Nat).1 ∈ ["eggs", "eggs", "toast", "eggs", "toast"] :=
  most_common_foods_spec.1 ["eggs", "eggs", "toast", "eggs", "toast"] 2 ("eggs", 3)
    (by decide)

/-- C10: every successful read against the remote backend — `get_all_entries`,
`get_entries_for_today`, `get_entries_by_date_range` — returns its entries
sorted by `datetime` in descending (newest-first) order, each being a
permutation of the rows it selects. -/
theorem reads_sorted_newest_first (st : RemoteState) (today startDate endDate : Date)
    (hav : st.available = true) :
    (get_all_entries st).Sorted byDatetimeDesc ∧
    List.Perm (get_all_entries st) st.rows ∧
    (get_entries_for_today st today).Sorted byDatetimeDesc ∧
    List.Perm (get_entries_for_today st today)
      (st.rows.filter fun r => decide (r.date = today)) ∧
    (get_entries_by_date_range st startDate endDate).Sorted byDatetimeDesc ∧
    List.Perm (get_entries_by_date_range st startDate endDate)
      (st.rows.filter fun r => decide (startDate.le r.date ∧ r.date.le endDate)) := by
  unfold get_all_entries get_entries_for_today get_entries_by_date_range
  rw [if_pos hav, if_pos hav, if_pos hav]
  exact ⟨List.sorted_insertionSort _ _, List.perm_insertionSort _ _,
    List.sorted_insertionSort _ _, List.perm_insertionSort _ _,
    List.sorted_insertionSort _ _, List.perm_insertionSort _ _⟩

theorem reads_sorted_newest_first_witness :
    (get_all_entries
        ⟨true, [⟨1, ⟨2024, 1, 1, 8, 0, 0⟩, ⟨2024, 1, 1⟩, "Oatmeal", 300, 10⟩,
          ⟨2, ⟨2024, 1, 1, 12, 30, 0⟩, ⟨2024, 1, 1⟩, "Chicken Salad", 450, 35⟩], 3⟩).Sorted
      byDatetimeDesc ∧
    List.Perm
      (get_all_entries
        ⟨true, [⟨1, ⟨2024, 1, 1, 8, 0, 0⟩, ⟨2024, 1, 1⟩, "Oatmeal", 300, 10⟩,
          ⟨2, ⟨2024, 1, 1, 12, 30, 0⟩, ⟨2024, 1, 1⟩, "Chicken Salad", 450, 35⟩], 3⟩)
      [⟨1, ⟨2024, 1, 1, 8, 0, 0⟩, ⟨2024, 1, 1⟩, "Oatmeal", 300, 10⟩,
        ⟨2, ⟨2024, 1, 1, 12, 30, 0⟩, ⟨2024, 1, 1⟩, "Chicken Salad", 450, 35⟩] :=
  ⟨(reads_sorted_newest_first
      ⟨true, [⟨1, ⟨2024, 1, 1, 8, 0, 0⟩, ⟨2024, 1, 1⟩, "Oatmeal", 300, 10⟩,
        ⟨2, ⟨2024, 1, 1, 12, 30, 0⟩, ⟨2024, 1, 1⟩, "Chicken Salad", 450, 35⟩], 3⟩
      ⟨2024, 1, 1⟩ ⟨2024, 1, 1⟩ ⟨2024, 1, 2⟩ rfl).1,
    (reads_sorted_newest_first
      ⟨true, [⟨1, ⟨2024, 1, 1, 8, 0, 0⟩, ⟨2024, 1, 1⟩, "Oatmeal", 300, 10⟩,
        ⟨2, ⟨2024, 1, 1, 12, 30, 0⟩, ⟨2024, 1, 1⟩, "Chicken Salad", 450, 35⟩], 3⟩
      ⟨2024, 1, 1⟩ ⟨2024, 1, 1⟩ ⟨2024, 1, 2⟩ rfl).2.1⟩

end NutriTrack
